import Mathlib

/-!
Verification of the Leuphana knowledge-graph pipeline.

Shallow embedding of the extraction / graph-construction core
(`scraper.py`, `rdf_generator.py`) of the Leuphana-knowledge-graph
repository.  Python strings are modelled as Lean `String`
(lists of unicode characters); Python dicts keyed by uri are modelled
as insertion-ordered association lists, matching CPython dict
semantics; the rdflib `Graph` is modelled as a list of triples in
insertion order.  `str.lower` is modelled character-wise for ASCII
plus the German upper-case letters occurring in this code base; the
regex class `\w` is modelled as ASCII alphanumerics, the underscore
and the German letters occurring in the repository data (the full
Unicode word class is not needed by any statement below, which only
distinguish ASCII word characters from the punctuation the code
strips).
-/

namespace LeuphanaKG

/-- Python `str.lower` on one character: ASCII folding plus the German
capital letters used in this repository. -/
def pyLowerChar (c : Char) : Char :=
  if c = 'Ä' then 'ä'
  else if c = 'Ö' then 'ö'
  else if c = 'Ü' then 'ü'
  else c.toLower

/-- Python `str.lower` on a string. -/
def pyLower (s : String) : String :=
  ⟨s.data.map pyLowerChar⟩

/-- The test `prefixOf a b` holds when the character list `a` is an initial
segment of `b` (Python `str.startswith`). -/
def prefixOf : List Char → List Char → Bool
  | [], _ => true
  | _ :: _, [] => false
  | a :: as, b :: bs => a = b && prefixOf as bs

/-- The test `containsSub n h` models the Python substring test `n in h`. -/
def containsSub : List Char → List Char → Bool
  | n, [] => prefixOf n []
  | n, c :: rest => prefixOf n (c :: rest) || containsSub n rest

/-- Python `needle in haystack` on strings. -/
def strContains (needle hay : String) : Bool :=
  containsSub needle.data hay.data

/-- Embedding of `determine_person_category` (scraper.py, lines 262-305):
the ordered chain of substring checks on the lower-cased concatenation
of text, url and title. -/
def determine_person_category (text : String) (url : String := "") (title : String := "") : String :=
  let combined := pyLower (text ++ " " ++ url ++ " " ++ title)
  if strContains "juniorprof" combined || strContains "junior professor" combined
      || strContains "jun.-prof" combined then "JuniorProfessor"
  else if strContains "honorar" combined || strContains "honorary" combined then "HonoraryProfessor"
  else if strContains "emerit" combined then "EmeritusProfessor"
  else if strContains "gastprof" combined || strContains "visiting prof" combined then "VisitingProfessor"
  else if strContains "apl." combined || strContains "adjunct" combined
      || strContains "außerplanmäßig" combined then "AdjunctProfessor"
  else if strContains "prof." combined || strContains "professor" combined then "Professor"
  else if strContains "post-doc" combined || strContains "postdoc" combined then "PostDoc"
  else if strContains "phd" combined || strContains "doktorand" combined
      || strContains "doctoral" combined then "PhDStudent"
  else if strContains "lecturer" combined || strContains "lektor" combined
      || strContains "lehrbeauft" combined then "Lecturer"
  else if strContains "research assistant" combined || strContains "wissenschaftl" combined then "ResearchAssistant"
  else if strContains "visiting scientist" combined || strContains "gastwissenschaft" combined then "VisitingScientist"
  else if strContains "hiwi" combined || strContains "student assistant" combined
      || strContains "hilfskraft" combined then "StudentAssistant"
  else if strContains "dr." combined && !strContains "prof" combined then "PostDoc"
  else "AcademicStaff"

/-- An ordered decision list, evaluated top to bottom, first matching
rule wins; this follows the specification's description of the
classifier as an explicit list of (predicate, category) pairs. -/
def firstMatch : List ((String → Bool) × String) → String → String → String
  | [], dflt, _ => dflt
  | (p, cat) :: rest, dflt, x => if p x then cat else firstMatch rest dflt x

/-- The specification's decision list for person categories, in its
stated order, with each rule's marker set taken from the source. -/
def personRules : List ((String → Bool) × String) :=
  [ (fun c => strContains "juniorprof" c || strContains "junior professor" c
      || strContains "jun.-prof" c, "JuniorProfessor"),
    (fun c => strContains "honorar" c || strContains "honorary" c, "HonoraryProfessor"),
    (fun c => strContains "emerit" c, "EmeritusProfessor"),
    (fun c => strContains "gastprof" c || strContains "visiting prof" c, "VisitingProfessor"),
    (fun c => strContains "apl." c || strContains "adjunct" c
      || strContains "außerplanmäßig" c, "AdjunctProfessor"),
    (fun c => strContains "prof." c || strContains "professor" c, "Professor"),
    (fun c => strContains "post-doc" c || strContains "postdoc" c, "PostDoc"),
    (fun c => strContains "phd" c || strContains "doktorand" c
      || strContains "doctoral" c, "PhDStudent"),
    (fun c => strContains "lecturer" c || strContains "lektor" c
      || strContains "lehrbeauft" c, "Lecturer"),
    (fun c => strContains "research assistant" c || strContains "wissenschaftl" c, "ResearchAssistant"),
    (fun c => strContains "visiting scientist" c || strContains "gastwissenschaft" c, "VisitingScientist"),
    (fun c => strContains "hiwi" c || strContains "student assistant" c
      || strContains "hilfskraft" c, "StudentAssistant"),
    (fun c => strContains "dr." c && !strContains "prof" c, "PostDoc") ]

/-- Python regex class `\s` (its ASCII members, which are the only
whitespace the repository's data contains). -/
def pySpace (c : Char) : Bool :=
  c = ' ' || c = '\t' || c = '\n' || c = '\r' || c = '\x0b' || c = '\x0c'

/-- Python regex class `\w`: ASCII alphanumerics, the underscore, and
the German letters occurring in this code base (see the module
docstring for the modelling of the full Unicode word class). -/
def pyWordChar (c : Char) : Bool :=
  c.isAlphanum || c = '_' || c = 'ä' || c = 'ö' || c = 'ü' || c = 'ß'
    || c = 'Ä' || c = 'Ö' || c = 'Ü'

/-- Python `str.strip()`: remove whitespace from both ends. -/
def pyStripWs (l : List Char) : List Char :=
  ((l.dropWhile pySpace).reverse.dropWhile pySpace).reverse

/-- Worker for `collapseRuns`: `inRun` records whether we are inside a
maximal run of characters satisfying `p` whose replacement has already
been emitted. -/
def collapseRunsGo (p : Char → Bool) (r : Char) : Bool → List Char → List Char
  | _, [] => []
  | inRun, c :: rest =>
    if p c then
      if inRun then collapseRunsGo p r true rest
      else r :: collapseRunsGo p r true rest
    else c :: collapseRunsGo p r false rest

/-- Python `re.sub` of a one-or-more character-class pattern by a
single replacement character: each maximal run of characters
satisfying `p` becomes the single character `r`. -/
def collapseRuns (p : Char → Bool) (r : Char) (l : List Char) : List Char :=
  collapseRunsGo p r false l

/-- The slug computed by `create_uri` (scraper.py, lines 172-178):
lower-case, drop characters outside `\w`, `\s` and hyphen, strip outer
whitespace, collapse whitespace runs to single hyphens, collapse
hyphen runs. -/
def createSlug (name : String) : String :=
  let l1 := (pyLower name).data.filter (fun c => pyWordChar c || pySpace c || c = '-')
  let l2 := pyStripWs l1
  let l3 := collapseRuns pySpace '-' l2
  ⟨collapseRuns (fun c => c = '-') '-' l3⟩

/-- Embedding of `create_uri` (scraper.py, lines 172-178); the literal
prefix in the source equals the configured instance namespace
`INSTANCE_NS = "http://leuphana.de/resource/"` (config.py, line 240). -/
def create_uri (entity_type name : String) : String :=
  "http://leuphana.de/resource/" ++ entity_type ++ "/" ++ createSlug name

/-- Python `str.strip('-')`: remove hyphens from both ends. -/
def stripHyphens (l : List Char) : List Char :=
  ((l.dropWhile (fun c => c = '-')).reverse.dropWhile (fun c => c = '-')).reverse

/-- The slug computed by `name_to_uri` (rdf_generator.py, lines 70-83):
lower-case, keep only `[a-z0-9\s-]`, collapse whitespace runs to single
hyphens, collapse hyphen runs, strip leading and trailing hyphens. -/
def nameSlug (name : String) : String :=
  let l1 := (pyLower name).data.filter (fun c => c.isLower || c.isDigit || pySpace c || c = '-')
  let l2 := collapseRuns pySpace '-' l1
  ⟨stripHyphens (collapseRuns (fun c => c = '-') '-' l2)⟩

/-- Embedding of `RDFGenerator.name_to_uri` (rdf_generator.py,
lines 70-83), with `INSTANCE_NS` from config.py line 240. -/
def name_to_uri (entity_type name : String) : String :=
  "http://leuphana.de/resource/" ++ entity_type ++ "/" ++ nameSlug name

/-- The test `noAdjPairB p l` holds when no two adjacent characters of `l` both
satisfy `p`. -/
def noAdjPairB (p : Char → Bool) : List Char → Bool
  | [] => true
  | [_] => true
  | a :: b :: rest => !(p a && p b) && noAdjPairB p (b :: rest)

/-- An RDF node, mirroring rdflib: a URI reference, or a literal with
an optional language tag and an optional datatype. -/
inductive Node where
  | uri (s : String)
  | lit (v : String) (lang : Option String) (dt : Option String)
deriving DecidableEq, Repr

/-- An RDF triple. -/
structure Triple where
  s : Node
  p : Node
  o : Node
deriving DecidableEq, Repr

/-- The rdflib graph is modelled as the list of added triples in
insertion order (CPython dict order); rdflib's set semantics only
merges duplicate triples, which none of the statements below depend
on. -/
abbrev RdfGraph := List Triple

def rdfType : Node := .uri "http://www.w3.org/1999/02/22-rdf-syntax-ns#type"

def rdfsLabel : Node := .uri "http://www.w3.org/2000/01/rdf-schema#label"

/-- The ontology namespace `LEUPH` (config.py line 239). -/
def leuph (s : String) : Node := .uri ("http://leuphana.de/ontology#" ++ s)

def foaf (s : String) : Node := .uri ("http://xmlns.com/foaf/0.1/" ++ s)

def schemaOrg (s : String) : Node := .uri ("http://schema.org/" ++ s)

/-- The instance namespace `INSTANCE_NS` (config.py line 240). -/
def instanceNS : String := "http://leuphana.de/resource/"

/-- The single University root node. -/
def universityNode : Node := .uri (instanceNS ++ "university/leuphana")

/-- The College fallback unit created by `_create_core_academic_units`. -/
def collegeNode : Node := .uri (instanceNS ++ "school/college")

def gradSchoolNode : Node := .uri (instanceNS ++ "school/graduate-school")

def profSchoolNode : Node := .uri (instanceNS ++ "school/professional-school")

def xsdDate : String := "http://www.w3.org/2001/XMLSchema#date"

def xsdInteger : String := "http://www.w3.org/2001/XMLSchema#integer"

def litEn (v : String) : Node := .lit v (some "en") none

def litPlain (v : String) : Node := .lit v none none

/-- Python truthiness of an optional string attribute read with
`dict.get`: absent or empty means falsy. -/
def optStr : Option String → Option String
  | none => none
  | some s => if s.isEmpty then none else some s

/-- Python truthiness of an optional integer: absent or zero is falsy. -/
def optInt : Option Int → Option Int
  | none => none
  | some n => if n = 0 then none else some n

/-- Triples contributed by one optional attribute. -/
def optTriples (o : Option String) (f : String → List Triple) : List Triple :=
  match o with
  | some x => f x
  | none => []

/-- The data of one Course record as consumed by
`RDFGenerator.add_course` (scraper.py `Course` dataclass). -/
structure CourseData where
  uri : String
  name : String
  description : Option String
  credit_points : Option Int
  course_type : Option String
  part_of_program : Option String
  taught_by : List String
  semester : Option String
  language : Option String
  webpage : Option String

/-- The triples `add_course` adds for one course record
(rdf_generator.py, lines 476-542). -/
def courseDelta (c : CourseData) : List Triple :=
  let uri := Node.uri c.uri
  [⟨uri, rdfType, leuph "Course"⟩, ⟨uri, rdfType, schemaOrg "Course"⟩,
   ⟨uri, leuph "name", litEn c.name⟩, ⟨uri, rdfsLabel, litEn c.name⟩]
  ++ optTriples (optStr c.description) (fun d => [⟨uri, leuph "description", litEn d⟩])
  ++ (match optInt c.credit_points with
      | some n => [⟨uri, leuph "credits", Node.lit (toString n) none (some xsdInteger)⟩]
      | none => [])
  ++ optTriples (optStr c.course_type) (fun x => [⟨uri, leuph "courseType", litPlain x⟩])
  ++ optTriples (optStr c.semester) (fun x => [⟨uri, leuph "semester", litPlain x⟩])
  ++ optTriples (optStr c.language) (fun x => [⟨uri, leuph "language", litPlain x⟩])
  ++ (match optStr c.part_of_program with
      | some prog => [⟨uri, leuph "partOf", Node.uri prog⟩, ⟨Node.uri prog, leuph "hasPart", uri⟩]
      | none => [⟨uri, leuph "offeredBy", collegeNode⟩, ⟨collegeNode, leuph "offers", uri⟩])
  ++ (c.taught_by.flatMap (fun inst =>
      [⟨Node.uri inst, leuph "teaches", uri⟩, ⟨uri, leuph "taughtBy", Node.uri inst⟩]))
  ++ optTriples (optStr c.webpage) (fun w => [⟨uri, leuph "webpage", Node.uri w⟩])

/-- Embedding of `RDFGenerator.add_course`. -/
def add_course (g : RdfGraph) (c : CourseData) : RdfGraph :=
  g ++ courseDelta c

/-- Triples contributed for one core academic unit when its School
type triple is not yet present. -/
def coreUnitDelta (g : RdfGraph) (uri : Node) (nm ds : String) : List Triple :=
  if (⟨uri, rdfType, leuph "School"⟩ : Triple) ∈ g then []
  else
    [⟨uri, rdfType, leuph "School"⟩, ⟨uri, leuph "name", litEn nm⟩,
     ⟨uri, rdfsLabel, litEn nm⟩, ⟨uri, leuph "description", litEn ds⟩,
     ⟨uri, leuph "partOf", universityNode⟩, ⟨universityNode, leuph "hasPart", uri⟩]

/-- Embedding of `RDFGenerator._create_core_academic_units`
(rdf_generator.py, lines 544-580). -/
def create_core_academic_units (g : RdfGraph) : RdfGraph :=
  let g1 := g ++ coreUnitDelta g collegeNode "College"
    "Leuphana College offers undergraduate (Bachelor) programs"
  let g2 := g1 ++ coreUnitDelta g1 gradSchoolNode "Graduate School"
    "Leuphana Graduate School offers Master's programs"
  g2 ++ coreUnitDelta g2 profSchoolNode "Professional School"
    "Leuphana Professional School offers professional and continuing education programs"

/-- The string rdflib's `str` returns for a node: the URI text of a
URIRef, the value of a Literal. -/
def nodeStr : Node → String
  | .uri s => s
  | .lit v _ _ => v

/-- The iterator `graph.subjects(RDF.type, cls)`, in graph insertion order
(duplicate subjects repeat, which cannot change any first match
below). -/
def subjectsOfType (g : RdfGraph) (cls : Node) : List Node :=
  (g.filter (fun t => decide (t.p = rdfType ∧ t.o = cls))).map (fun t => t.s)

/-- The iterator `graph.objects(s, p)` in insertion order. -/
def objectsOf (g : RdfGraph) (s p : Node) : List Node :=
  (g.filter (fun t => decide (t.s = s ∧ t.p = p))).map (fun t => t.o)

/-- Python `str.rstrip('/')`. -/
def pyRstripSlash (s : String) : String :=
  ⟨(s.data.reverse.dropWhile (fun c => c = '/')).reverse⟩

/-- Python `str.split('/')` (always non-empty; splitting the empty
string yields one empty part). -/
def splitOnSlash : List Char → List (List Char)
  | [] => [[]]
  | c :: rest =>
    if c = '/' then [] :: splitOnSlash rest
    else
      match splitOnSlash rest with
      | [] => [[c]]
      | w :: ws => (c :: w) :: ws

/-- The path parts of a soft-reference uri string:
`uri_string.rstrip('/').split('/')`. -/
def refParts (u : String) : List String :=
  (splitOnSlash (pyRstripSlash u).data).map (fun l => (⟨l⟩ : String))

/-- The expression `parts[-1].lower() if parts else ''` from `_resolve_org_uri`. -/
def refAbbrev (u : String) : String :=
  match (refParts u).getLast? with
  | some x => pyLower x
  | none => ""

/-- The expression `parts[-2] if len(parts) >= 2 else ''` from `_resolve_org_uri`. -/
def refEntityType (u : String) : String :=
  if (refParts u).length ≥ 2 then ((refParts u).get? ((refParts u).length - 2)).getD ""
  else ""

/-- The `type_to_class` dictionary of `_resolve_org_uri`. -/
def typeToClass (s : String) : Option Node :=
  if s = "institute" then some (leuph "Institute")
  else if s = "research-center" then some (leuph "ResearchCenter")
  else if s = "school" then some (leuph "School")
  else none

/-- Python `str.endswith`. -/
def suffixOf (a b : List Char) : Bool :=
  prefixOf a.reverse b.reverse

/-- The candidate loop of `_resolve_org_uri`: per candidate, first the
substring/suffix test on the lowered full URI, then the stored
abbreviation property. -/
def findOrgCandidate (g : RdfGraph) (ab : String) : List Node → Option Node
  | [] => none
  | s :: rest =>
    if containsSub ab.data (pyLower (nodeStr s)).data
        || suffixOf ab.data (pyLower (nodeStr s)).data then some s
    else if (objectsOf g s (leuph "abbreviation")).any
        (fun o => decide (pyLower (nodeStr o) = ab)) then some s
    else findOrgCandidate g ab rest

/-- The candidate-loop result, or the University fallback. -/
def resolveFound : Option Node → Node
  | some s => s
  | none => universityNode

/-- Resolution scoped to one hinted class. -/
def resolveWithClass (g : RdfGraph) (ab : String) (cls : Node) : Node :=
  resolveFound (findOrgCandidate g ab (subjectsOfType g cls))

/-- Resolution once the hinted kind has been looked up. -/
def resolveStep2 (g : RdfGraph) (ab : String) : Option Node → Node
  | some cls => resolveWithClass g ab cls
  | none => universityNode

/-- Embedding of `RDFGenerator._resolve_org_uri` (rdf_generator.py,
lines 582-620). -/
def resolve_org_uri (g : RdfGraph) (uri_string : String) : Node :=
  if g.any (fun t => decide (t.s = Node.uri uri_string ∧ t.p = rdfType)) then Node.uri uri_string
  else resolveStep2 g (refAbbrev uri_string) (typeToClass (refEntityType uri_string))

def instA : Node :=
  .uri "http://leuphana.de/resource/institute/institute-of-management-and-organization-imo"

def instB : Node := .uri "http://leuphana.de/resource/institute/second-candidate"

/-- A registry state with two institutes: `instA` (registered first,
its URI contains "imo", it stores no abbreviation) and `instB`
(registered second, its stored abbreviation is "IMO", its URI does not
contain "imo"). -/
def resolveOrderGraph : RdfGraph :=
  [⟨instA, rdfType, leuph "Institute"⟩,
   ⟨instB, rdfType, leuph "Institute"⟩,
   ⟨instB, leuph "abbreviation", litPlain "IMO"⟩]

def orgC : Node := .uri "http://leuphana.de/resource/organization/imo-group"

/-- A graph whose only entity is a generic `foaf:Organization` whose
URI contains "imo". -/
def orgOnlyGraph : RdfGraph := [⟨orgC, rdfType, foaf "Organization"⟩]

/-- The resolver as the amended claim describes it: exact match, then
— only for the hinted kinds institute / research-center / school — the
first candidate in graph order matching by substring, suffix or stored
abbreviation (all three tested on each candidate before moving on),
then the University root; there is no broader Organization search. -/
def amendedStep2 (g : RdfGraph) (u : String) : Option Node → Node
  | none => universityNode
  | some cls =>
    ((subjectsOfType g cls).find? (fun s =>
      containsSub (refAbbrev u).data (pyLower (nodeStr s)).data
      || suffixOf (refAbbrev u).data (pyLower (nodeStr s)).data
      || (objectsOf g s (leuph "abbreviation")).any
          (fun o => decide (pyLower (nodeStr o) = refAbbrev u)))).getD universityNode

def resolveSpecAmended (g : RdfGraph) (u : String) : Node :=
  if g.any (fun t => decide (t.s = Node.uri u ∧ t.p = rdfType)) then Node.uri u
  else amendedStep2 g u (typeToClass (refEntityType u))

/-- Python `str.upper` character-wise (ASCII plus the German small
letters; the special case `ß → "SS"` changes the length and never
reaches an abbreviation comparison in this code base). -/
def pyUpperChar (c : Char) : Char :=
  if c = 'ä' then 'Ä'
  else if c = 'ö' then 'Ö'
  else if c = 'ü' then 'Ü'
  else c.toUpper

def pyUpper (s : String) : String :=
  ⟨s.data.map pyUpperChar⟩

/-- The data of one Person record as consumed by
`RDFGenerator.add_person` (scraper.py `Person` dataclass). -/
structure PersonData where
  uri : String
  name : String
  first_name : Option String
  last_name : Option String
  title : Option String
  email : Option String
  phone : Option String
  office : Option String
  webpage : Option String
  institute : Option String
  school : Option String
  research_areas : List String
  category : Option String

/-- The `category_mapping` dictionary of `add_person`; every key maps
to the ontology class of the same name. -/
def categoryMapping : List (String × String) :=
  [("Professor", "Professor"), ("JuniorProfessor", "JuniorProfessor"),
   ("HonoraryProfessor", "HonoraryProfessor"), ("EmeritusProfessor", "EmeritusProfessor"),
   ("VisitingProfessor", "VisitingProfessor"), ("AdjunctProfessor", "AdjunctProfessor"),
   ("ResearchAssistant", "ResearchAssistant"), ("PostDoc", "PostDoc"),
   ("PhDStudent", "PhDStudent"), ("Lecturer", "Lecturer"),
   ("VisitingScientist", "VisitingScientist"), ("StudentAssistant", "StudentAssistant"),
   ("AdministrativeStaff", "AdministrativeStaff"), ("AcademicStaff", "AcademicStaff")]

/-- The lookup `category_mapping.get(category, LEUPH.AcademicStaff)` with the
`person_data.get("category", "AcademicStaff")` default. -/
def categoryClass (c : Option String) : Node :=
  leuph ((categoryMapping.lookup (c.getD "AcademicStaff")).getD "AcademicStaff")

/-- The institute loop of `add_person` (rdf_generator.py, lines
200-210): per candidate, stored abbreviation first, then substring on
the lowered URI. -/
def findInstituteLoop (g : RdfGraph) (abU : String) : List Node → Option Node
  | [] => none
  | s :: rest =>
    if (objectsOf g s (leuph "abbreviation")).any
        (fun o => decide (pyUpper (nodeStr o) = abU)) then some s
    else if containsSub (pyLower abU).data (pyLower (nodeStr s)).data then some s
    else findInstituteLoop g abU rest

/-- The ResearchCenter / Chair loops of `add_person` (substring on the
lowered URI only). -/
def findBySub (abU : String) : List Node → Option Node
  | [] => none
  | s :: rest =>
    if containsSub (pyLower abU).data (pyLower (nodeStr s)).data then some s
    else findBySub abU rest

/-- The full institute search of `add_person`: Institutes, then
ResearchCenters, then Chairs. -/
def findInstitute (g : RdfGraph) (abU : String) : Option Node :=
  match findInstituteLoop g abU (subjectsOfType g (leuph "Institute")) with
  | some s => some s
  | none =>
    match findBySub abU (subjectsOfType g (leuph "ResearchCenter")) with
    | some s => some s
    | none => findBySub abU (subjectsOfType g (leuph "Chair"))

/-- The attribute triples `add_person` adds before its linking
section. -/
def personBasic (p : PersonData) : List Triple :=
  [⟨Node.uri p.uri, rdfType, categoryClass p.category⟩,
   ⟨Node.uri p.uri, rdfType, foaf "Person"⟩,
   ⟨Node.uri p.uri, leuph "name", litPlain p.name⟩,
   ⟨Node.uri p.uri, rdfsLabel, litPlain p.name⟩,
   ⟨Node.uri p.uri, foaf "name", litPlain p.name⟩]
  ++ optTriples (optStr p.first_name) (fun x =>
      [⟨Node.uri p.uri, leuph "firstName", litPlain x⟩,
       ⟨Node.uri p.uri, foaf "firstName", litPlain x⟩])
  ++ optTriples (optStr p.last_name) (fun x =>
      [⟨Node.uri p.uri, leuph "lastName", litPlain x⟩,
       ⟨Node.uri p.uri, foaf "lastName", litPlain x⟩])
  ++ optTriples (optStr p.title) (fun x => [⟨Node.uri p.uri, leuph "title", litPlain x⟩])
  ++ optTriples (optStr p.email) (fun x =>
      [⟨Node.uri p.uri, leuph "email", litPlain x⟩,
       ⟨Node.uri p.uri, foaf "mbox", Node.uri ("mailto:" ++ x)⟩])
  ++ optTriples (optStr p.phone) (fun x => [⟨Node.uri p.uri, leuph "phone", litPlain x⟩])
  ++ optTriples (optStr p.office) (fun x => [⟨Node.uri p.uri, leuph "office", litPlain x⟩])
  ++ optTriples (optStr p.webpage) (fun x =>
      [⟨Node.uri p.uri, leuph "webpage", Node.uri x⟩,
       ⟨Node.uri p.uri, foaf "homepage", Node.uri x⟩])

/-- The institute link `add_person` resolves, searching the graph
state that already contains the person's attribute triples (as the
code searches `self.graph` mid-method). -/
def personInstLink (g : RdfGraph) (p : PersonData) : Option Node :=
  match optStr p.institute with
  | some i => findInstitute (g ++ personBasic p) (pyUpper i)
  | none => none

/-- The triples `add_person` adds for one person record
(rdf_generator.py, lines 133-248). -/
def personDelta (g : RdfGraph) (p : PersonData) : List Triple :=
  personBasic p
  ++ (match personInstLink g p with
      | some inst =>
        [⟨Node.uri p.uri, leuph "memberOf", inst⟩, ⟨inst, leuph "hasMember", Node.uri p.uri⟩]
      | none => [])
  ++ optTriples (optStr p.school) (fun sch =>
      [⟨Node.uri p.uri, leuph "worksAt", Node.uri (name_to_uri "school" sch)⟩,
       ⟨Node.uri (name_to_uri "school" sch), leuph "hasEmployee", Node.uri p.uri⟩])
  ++ (if (personInstLink g p).isSome || (optStr p.school).isSome then []
      else [⟨Node.uri p.uri, leuph "affiliatedWith", universityNode⟩,
            ⟨universityNode, leuph "hasAffiliate", Node.uri p.uri⟩])
  ++ p.research_areas.map (fun a => ⟨Node.uri p.uri, leuph "hasResearchArea", litPlain a⟩)

/-- Embedding of `RDFGenerator.add_person`. -/
def add_person (g : RdfGraph) (p : PersonData) : RdfGraph :=
  g ++ personDelta g p

/-- The data of one HiwiPosition record (scraper.py `HiwiPosition`
dataclass; `contact_person` is never written by `add_hiwi_position`
and is omitted). -/
structure HiwiData where
  uri : String
  title : String
  description : Option String
  department : Option String
  contact_email : Option String
  posted_date : Option String
  hours_per_week : Option String
  webpage : Option String

/-- The triples `add_hiwi_position` adds (rdf_generator.py, lines
351-388); note the department link gets only the forward `postedBy`
triple. -/
def hiwiDelta (h : HiwiData) : List Triple :=
  [⟨Node.uri h.uri, rdfType, leuph "HiwiPosition"⟩,
   ⟨Node.uri h.uri, leuph "name", litEn h.title⟩,
   ⟨Node.uri h.uri, rdfsLabel, litEn h.title⟩]
  ++ optTriples (optStr h.description) (fun d => [⟨Node.uri h.uri, leuph "description", litEn d⟩])
  ++ optTriples (optStr h.department) (fun d =>
      [⟨Node.uri h.uri, leuph "postedBy", Node.uri (name_to_uri "institute" d)⟩])
  ++ optTriples (optStr h.contact_email) (fun e =>
      [⟨Node.uri h.uri, leuph "contactEmail", litPlain e⟩])
  ++ optTriples (optStr h.posted_date) (fun d =>
      [⟨Node.uri h.uri, leuph "postedDate", Node.lit d none (some xsdDate)⟩])
  ++ optTriples (optStr h.hours_per_week) (fun x =>
      [⟨Node.uri h.uri, leuph "hoursPerWeek", litPlain x⟩])
  ++ optTriples (optStr h.webpage) (fun w => [⟨Node.uri h.uri, leuph "webpage", Node.uri w⟩])

/-- Embedding of `RDFGenerator.add_hiwi_position`. -/
def add_hiwi_position (g : RdfGraph) (h : HiwiData) : RdfGraph :=
  g ++ hiwiDelta h

/-- The data of one ResearchProject record (scraper.py
`ResearchProject` dataclass). -/
structure ProjectData where
  uri : String
  name : String
  description : Option String
  conducted_by : Option String
  principal_investigator : Option String
  funding_source : Option String
  start_date : Option String
  end_date : Option String
  webpage : Option String

/-- The triples `add_research_project` adds before the conducted-by
resolution. -/
def projectBasic (pr : ProjectData) : List Triple :=
  [⟨Node.uri pr.uri, rdfType, leuph "ResearchProject"⟩,
   ⟨Node.uri pr.uri, leuph "name", litEn pr.name⟩,
   ⟨Node.uri pr.uri, rdfsLabel, litEn pr.name⟩]
  ++ optTriples (optStr pr.description) (fun d =>
      [⟨Node.uri pr.uri, leuph "description", litPlain d⟩])

/-- The triples `add_research_project` adds (rdf_generator.py, lines
426-474); the principal-investigator link gets only the forward
`worksOn` triple. -/
def projectDelta (g : RdfGraph) (pr : ProjectData) : List Triple :=
  projectBasic pr
  ++ (match optStr pr.conducted_by with
      | some cb =>
        [⟨Node.uri pr.uri, leuph "conductedBy", resolve_org_uri (g ++ projectBasic pr) cb⟩,
         ⟨resolve_org_uri (g ++ projectBasic pr) cb, leuph "conducts", Node.uri pr.uri⟩]
      | none =>
        [⟨Node.uri pr.uri, leuph "conductedBy", universityNode⟩,
         ⟨universityNode, leuph "conducts", Node.uri pr.uri⟩])
  ++ optTriples (optStr pr.principal_investigator) (fun x =>
      [⟨Node.uri x, leuph "worksOn", Node.uri pr.uri⟩])
  ++ optTriples (optStr pr.funding_source) (fun x =>
      [⟨Node.uri pr.uri, leuph "fundingSource", litPlain x⟩])
  ++ optTriples (optStr pr.start_date) (fun d =>
      [⟨Node.uri pr.uri, leuph "startDate", Node.lit d none (some xsdDate)⟩])
  ++ optTriples (optStr pr.end_date) (fun d =>
      [⟨Node.uri pr.uri, leuph "endDate", Node.lit d none (some xsdDate)⟩])
  ++ optTriples (optStr pr.webpage) (fun w => [⟨Node.uri pr.uri, leuph "webpage", Node.uri w⟩])

/-- Embedding of `RDFGenerator.add_research_project`. -/
def add_research_project (g : RdfGraph) (pr : ProjectData) : RdfGraph :=
  g ++ projectDelta g pr

/-- Every predicate `add_research_project` emits; no inverse of
`worksOn` is among them. -/
def projectPredicates : List Node :=
  [rdfType, leuph "name", rdfsLabel, leuph "description", leuph "conductedBy",
   leuph "conducts", leuph "worksOn", leuph "fundingSource", leuph "startDate",
   leuph "endDate", leuph "webpage"]

def hiwiEx : HiwiData :=
  ⟨"http://leuphana.de/resource/hiwi-position/demo-position", "Demo Position",
   none, some "Institute of Ecology", none, none, none, none⟩

def projEx : ProjectData :=
  ⟨"http://leuphana.de/resource/research-project/demo-project", "Demo Project",
   none, none, some "http://leuphana.de/resource/person/jane-doe", none, none, none, none⟩

def personW : PersonData :=
  ⟨"http://leuphana.de/resource/person/jane-doe", "Jane Doe", none, none, none,
   none, none, none, none, none, some "College", [], none⟩

/-- Worker for Python `str.split()` with no argument: split at every
whitespace character (empty words filtered afterwards). -/
def splitWsRaw : List Char → List (List Char)
  | [] => [[]]
  | c :: rest =>
    if pySpace c then [] :: splitWsRaw rest
    else
      match splitWsRaw rest with
      | [] => [[c]]
      | w :: ws => (c :: w) :: ws

/-- Python `str.split()`: whitespace-separated tokens, no empties. -/
def splitWs (s : String) : List String :=
  ((splitWsRaw s.data).filter (fun l => !l.isEmpty)).map (fun l => (⟨l⟩ : String))

/-- The academic-title token list of `extract_name_parts`
(scraper.py, lines 236-237). -/
def titlesList : List String :=
  ["Prof.", "Dr.", "Dr.-Ing.", "Jun.-Prof.", "Apl.", "rer.", "nat.",
   "phil.", "habil.", "PD", "M.A.", "M.Sc.", "MBA", "LL.M.", "Dipl.-"]

/-- The loop condition of `extract_name_parts`: the token starts with
or equals one of the title tokens. -/
def isTitleTok (tok : String) : Bool :=
  titlesList.any (fun t => prefixOf t.data tok.data || decide (tok = t))

/-- The title-stripping while loop: pop leading tokens while they
match a title token, returning (title_parts, remaining). -/
def stripTitles : List String → List String × List String
  | [] => ([], [])
  | tok :: rest =>
    if isTitleTok tok then
      let r := stripTitles rest
      (tok :: r.1, r.2)
    else ([], tok :: rest)

/-- Python `' '.join`. -/
def joinSpace : List String → String
  | [] => ""
  | [x] => x
  | x :: y :: rest => x ++ " " ++ joinSpace (y :: rest)

/-- Embedding of `extract_name_parts` (scraper.py, lines 233-259):
returns (first_name, last_name, title). -/
def extract_name_parts (full_name : String) : Option String × String × Option String :=
  let st := stripTitles (splitWs full_name)
  let title := if st.1.isEmpty then none else some (joinSpace st.1)
  match st.2 with
  | [] => (none, full_name, title)
  | [single] => (none, single, title)
  | a :: b :: rest =>
    (some (joinSpace ((a :: b :: rest).dropLast)), (a :: b :: rest).getLast (by simp), title)

/-- A scraper-side Person record (scraper.py `Person` dataclass;
`research_areas` and `image_url` are irrelevant to registration and
omitted). -/
structure SPerson where
  uri : String
  name : String
  first_name : Option String
  last_name : Option String
  title : Option String
  category : Option String
  email : Option String
  phone : Option String
  office : Option String
  webpage : Option String
  institute : Option String
  school : Option String
  source_url : String
deriving DecidableEq, Repr

/-- CPython dict assignment `m[k] = v`: replace in place if the key
exists, else append. -/
def dictInsert {α : Type} (m : List (String × α)) (k : String) (v : α) : List (String × α) :=
  if m.any (fun kv => decide (kv.1 = k)) then
    m.map (fun kv => if kv.1 = k then (k, v) else kv)
  else m ++ [(k, v)]

/-- CPython dict lookup. -/
def dictLookup {α : Type} : List (String × α) → String → Option α
  | [], _ => none
  | kv :: rest, key => if kv.1 = key then some kv.2 else dictLookup rest key

/-- The Person built by `scrape_person_list_page` (scraper.py, lines
611-624) from a link text. -/
def mkListPagePerson (name : String) (cat : Option String) (personUrl fullUrl : String) :
    SPerson :=
  let parts := extract_name_parts name
  let category :=
    match optStr cat with
    | some c => c
    | none => determine_person_category name personUrl ((parts.2.2).getD "")
  ⟨create_uri "person" name, name, parts.1, some parts.2.1, parts.2.2, some category,
   none, none, none, some personUrl, none, none, fullUrl⟩

/-- The registration step of `scrape_person_list_page` (line 632):
`self.persons[person.uri] = person`, keyed solely on the canonical
uri. -/
def registerPersonListPage (persons : List (String × SPerson)) (name : String)
    (cat : Option String) (personUrl fullUrl : String) : List (String × SPerson) :=
  dictInsert persons (create_uri "person" name) (mkListPagePerson name cat personUrl fullUrl)

/-- The registration step of `scrape_person_profile` (line 705):
`self.persons[person.uri] = person` — wholesale replacement. -/
def registerPersonProfile (persons : List (String × SPerson)) (p : SPerson) :
    List (String × SPerson) :=
  dictInsert persons p.uri p

/-- The professor lookup of `_create_chair_from_heading` (scraper.py,
lines 821-824): first registry entry whose display name equals the
candidate or contains it as a case-sensitive substring. -/
def findProfessor : List (String × SPerson) → String → Option String
  | [], _ => none
  | kv :: rest, pname =>
    if decide (kv.2.name = pname) || strContains pname kv.2.name then some kv.1
    else findProfessor rest pname

/-- The professor created when the lookup fails (scraper.py, lines
827-839). -/
def mkChairProfessor (pname src : String) : SPerson :=
  let parts := extract_name_parts pname
  ⟨create_uri "person" pname, pname, parts.1, some parts.2.1, parts.2.2, some "Professor",
   none, none, none, none, none, none, src⟩

/-- The find-or-create step of `_create_chair_from_heading`: the
resolved professor uri and the updated registry. -/
def chairHeadResolve (persons : List (String × SPerson)) (pname src : String) :
    String × List (String × SPerson) :=
  match findProfessor persons pname with
  | some u => (u, persons)
  | none =>
    (create_uri "person" pname,
     dictInsert persons (create_uri "person" pname) (mkChairProfessor pname src))

/-- A scraper-side HiwiPosition record. -/
structure SHiwi where
  uri : String
  title : String
  description : Option String
  department : Option String
  contact_email : Option String
  posted_date : Option String
  hours_per_week : Option String
  webpage : Option String
  source_url : String
deriving DecidableEq, Repr

/-- The registration step of `_scrape_single_hiwi_position` (scraper.py,
lines 1213-1215 and the final insert): if the uri already exists the
new record is skipped entirely, else it is stored. -/
def registerHiwiPosition (hiwis : List (String × SHiwi)) (h : SHiwi) :
    List (String × SHiwi) :=
  if hiwis.any (fun kv => decide (kv.1 = h.uri)) then hiwis
  else hiwis ++ [(h.uri, h)]

def personRecA : SPerson :=
  ⟨create_uri "person" "Anna Schmidt", "Anna Schmidt", some "Anna", some "Schmidt", none,
   some "Professor", some "anna.schmidt@leuphana.de", none, none, none, none, none, "src1"⟩

def personRecB : SPerson :=
  ⟨create_uri "person" "Anna Schmidt", "Anna Schmidt", some "Anna", some "Schmidt", none,
   some "Professor", none, some "04131-677-1234", none, none, none, none, "src2"⟩

def hiwiRec1 : SHiwi :=
  ⟨create_uri "hiwi-position" "Research assistant wanted", "Research assistant wanted",
   none, none, none, none, none, none, "src1"⟩

def hiwiRec2 : SHiwi :=
  ⟨create_uri "hiwi-position" "Research assistant wanted", "Research assistant wanted",
   some "Lab work", some "Institute of Ecology", none, none, none, none, "src2"⟩

theorem prefixOf_self_append (a r : List Char) : prefixOf a (a ++ r) = true := by
  induction a with
  | nil => rfl
  | cons c cs ih => simp [prefixOf, ih]

theorem prefixOf_exists {a b : List Char} (h : prefixOf a b = true) :
    ∃ r, b = a ++ r := by
  induction a generalizing b with
  | nil => exact ⟨b, rfl⟩
  | cons c cs ih =>
    cases b with
    | nil => simp [prefixOf] at h
    | cons d ds =>
      simp only [prefixOf, Bool.and_eq_true, decide_eq_true_eq] at h
      obtain ⟨r, hr⟩ := ih h.2
      exact ⟨r, by simp [h.1, hr]⟩

theorem containsSub_exists {a b : List Char} (h : containsSub a b = true) :
    ∃ l r, b = l ++ a ++ r := by
  induction b with
  | nil =>
    obtain ⟨r, hr⟩ := prefixOf_exists h
    exact ⟨[], r, hr⟩
  | cons c cs ih =>
    simp only [containsSub, Bool.or_eq_true] at h
    rcases h with h | h
    · obtain ⟨r, hr⟩ := prefixOf_exists h
      exact ⟨[], r, hr⟩
    · obtain ⟨l, r, hr⟩ := ih h
      exact ⟨c :: l, r, by simp [hr]⟩

theorem containsSub_of_prefixOf {a b : List Char} (h : prefixOf a b = true) :
    containsSub a b = true := by
  cases b with
  | nil => exact h
  | cons c cs => simp [containsSub, h]

theorem containsSub_of_parts (l a r : List Char) :
    containsSub a (l ++ a ++ r) = true := by
  induction l with
  | nil => exact containsSub_of_prefixOf (prefixOf_self_append a r)
  | cons c cs ih =>
    rw [List.cons_append, List.cons_append]
    simp only [containsSub, Bool.or_eq_true]
    right
    exact ih

theorem containsSub_trans {a b c : List Char}
    (hab : containsSub a b = true) (hbc : containsSub b c = true) :
    containsSub a c = true := by
  obtain ⟨l1, r1, h1⟩ := containsSub_exists hab
  obtain ⟨l2, r2, h2⟩ := containsSub_exists hbc
  subst h1
  rw [h2]
  have : l2 ++ (l1 ++ a ++ r1) ++ r2 = (l2 ++ l1) ++ a ++ (r1 ++ r2) := by
    simp [List.append_assoc]
  rw [this]
  exact containsSub_of_parts _ _ _

/-- C1 counterexample: the input whose combined text is
"honorary junior professor" contains both "honorary" and "professor",
yet the classifier returns JuniorProfessor (the junior-professor rule
fires first), not HonoraryProfessor — refuting the claim's
"every input whose combined text contains both ... yields
HonoraryProfessor". -/
theorem C1_counterexample :
    strContains "honorary" (pyLower ("honorary junior professor" ++ " " ++ "" ++ " " ++ "")) = true ∧
    strContains "professor" (pyLower ("honorary junior professor" ++ " " ++ "" ++ " " ++ "")) = true ∧
    determine_person_category "honorary junior professor" "" "" = "JuniorProfessor" ∧
    determine_person_category "honorary junior professor" "" "" ≠ "HonoraryProfessor" := by
  refine ⟨by decide, by decide, by decide, by decide⟩

/-- C1 (amended): `determine_person_category` is exactly the ordered
decision list evaluated top-to-bottom on the case-folded concatenation
of the three inputs, in the stated rule order with AcademicStaff as
default; an input whose combined text contains "honorary" and
"professor" and matches no junior-professor marker yields
HonoraryProfessor, and an input containing "honorary" never yields
Professor. -/
theorem C1_amended :
    (∀ text url title : String,
      determine_person_category text url title =
        firstMatch personRules "AcademicStaff" (pyLower (text ++ " " ++ url ++ " " ++ title))) ∧
    (∀ text url title : String,
      strContains "honorary" (pyLower (text ++ " " ++ url ++ " " ++ title)) = true →
      strContains "professor" (pyLower (text ++ " " ++ url ++ " " ++ title)) = true →
      strContains "juniorprof" (pyLower (text ++ " " ++ url ++ " " ++ title)) = false →
      strContains "junior professor" (pyLower (text ++ " " ++ url ++ " " ++ title)) = false →
      strContains "jun.-prof" (pyLower (text ++ " " ++ url ++ " " ++ title)) = false →
      determine_person_category text url title = "HonoraryProfessor") ∧
    (∀ text url title : String,
      strContains "honorary" (pyLower (text ++ " " ++ url ++ " " ++ title)) = true →
      determine_person_category text url title ≠ "Professor") := by
  refine ⟨fun text url title => rfl, ?_, ?_⟩
  · intro text url title h1 _h2 h3 h4 h5
    have h6 : strContains "honorar" (pyLower (text ++ " " ++ url ++ " " ++ title)) = true :=
      containsSub_trans (by decide) h1
    simp only [determine_person_category, h3, h4, h5, h6]
    simp
  · intro text url title h1
    have h6 : strContains "honorar" (pyLower (text ++ " " ++ url ++ " " ++ title)) = true :=
      containsSub_trans (by decide) h1
    simp only [determine_person_category, h6, Bool.true_or]
    cases hj : (strContains "juniorprof" (pyLower (text ++ " " ++ url ++ " " ++ title))
        || strContains "junior professor" (pyLower (text ++ " " ++ url ++ " " ++ title))
        || strContains "jun.-prof" (pyLower (text ++ " " ++ url ++ " " ++ title))) with
    | false => simp
    | true => simp

/-- C1 amended, witnessed at a concrete input: "honorary professor of
arts" contains "honorary" and "professor", matches no junior marker,
and classifies as HonoraryProfessor and not Professor. -/
theorem C1_witness :
    determine_person_category "honorary professor of arts" "" "" = "HonoraryProfessor" ∧
    determine_person_category "honorary professor of arts" "" "" ≠ "Professor" :=
  ⟨C1_amended.2.1 "honorary professor of arts" "" "" (by decide) (by decide)
      (by decide) (by decide) (by decide),
    C1_amended.2.2 "honorary professor of arts" "" "" (by decide)⟩

theorem collapseRunsGo_noAdjPair (p : Char → Bool) (r : Char) :
    ∀ l inRun, noAdjPairB p (collapseRunsGo p r inRun l) = true ∧
      (inRun = true → ∀ c cs, collapseRunsGo p r inRun l = c :: cs → p c = false) := by
  intro l
  induction l with
  | nil =>
    intro inRun
    refine ⟨rfl, ?_⟩
    intro _ c cs h
    simp [collapseRunsGo] at h
  | cons a rest ih =>
    intro inRun
    by_cases hp : p a = true
    · cases inRun with
      | true =>
        simp only [collapseRunsGo, hp, if_true]
        exact ⟨(ih true).1, fun _ => (ih true).2 rfl⟩
      | false =>
        simp only [collapseRunsGo, hp, if_true, if_false]
        constructor
        · cases hout : collapseRunsGo p r true rest with
          | nil => simp [noAdjPairB]
          | cons c cs =>
            have hc : p c = false := (ih true).2 rfl c cs hout
            have hrec := (ih true).1
            rw [hout] at hrec
            simp [noAdjPairB, hc, hrec]
        · intro h
          simp at h
    · have hp' : p a = false := by simpa using hp
      simp only [collapseRunsGo, hp', Bool.false_eq_true, if_false]
      constructor
      · cases hout : collapseRunsGo p r false rest with
        | nil => simp [noAdjPairB]
        | cons c cs =>
          have hrec := (ih false).1
          rw [hout] at hrec
          simp [noAdjPairB, hp', hrec]
      · intro _ c cs h
        injection h with h1 _
        rw [← h1]
        exact hp'

theorem collapseRunsGo_mem (p : Char → Bool) (r : Char) :
    ∀ l inRun c, c ∈ collapseRunsGo p r inRun l → c = r ∨ (p c = false ∧ c ∈ l) := by
  intro l
  induction l with
  | nil =>
    intro inRun c h
    simp [collapseRunsGo] at h
  | cons a rest ih =>
    intro inRun c h
    by_cases hp : p a = true
    · cases inRun with
      | true =>
        simp only [collapseRunsGo, hp, if_true] at h
        rcases ih true c h with h' | h'
        · exact Or.inl h'
        · exact Or.inr ⟨h'.1, List.mem_cons_of_mem a h'.2⟩
      | false =>
        simp only [collapseRunsGo, hp, if_true, if_false] at h
        rcases List.mem_cons.mp h with h' | h'
        · exact Or.inl h'
        · rcases ih true c h' with h'' | h''
          · exact Or.inl h''
          · exact Or.inr ⟨h''.1, List.mem_cons_of_mem a h''.2⟩
    · have hp' : p a = false := by simpa using hp
      simp only [collapseRunsGo, hp', Bool.false_eq_true, if_false] at h
      rcases List.mem_cons.mp h with h' | h'
      · refine Or.inr ⟨?_, ?_⟩
        · rw [h']
          exact hp'
        · rw [h']
          exact List.mem_cons_self _ _
      · rcases ih false c h' with h'' | h''
        · exact Or.inl h''
        · exact Or.inr ⟨h''.1, List.mem_cons_of_mem a h''.2⟩

/-- C2 counterexample: `create_uri` keeps the underscore of "a_b"
(Python `\w` includes it), where the claim's algorithm — strip
everything outside `[a-z0-9 space hyphen]` — would yield slug "ab";
and it keeps the leading/trailing hyphens of "-data-", which the
claim's algorithm would trim to "data". -/
theorem C2_counterexample :
    create_uri "person" "a_b" = "http://leuphana.de/resource/person/a_b" ∧
    create_uri "person" "a_b" ≠ "http://leuphana.de/resource/person/ab" ∧
    create_uri "chair" "-data-" = "http://leuphana.de/resource/chair/-data-" ∧
    create_uri "chair" "-data-" ≠ "http://leuphana.de/resource/chair/data" := by
  refine ⟨by decide, by decide, by decide, by decide⟩

/-- C2 (amended): `create_uri` returns exactly the instance-namespace
prefix followed by kind/slug, where the slug lower-cases the name,
strips every character outside word characters (ASCII alphanumerics,
the underscore and non-ASCII letters), whitespace and hyphen, strips
outer whitespace, collapses whitespace runs to single hyphens and
collapses repeated hyphens, WITHOUT trimming leading or trailing
hyphens; the function is pure and total, an empty name yields an empty
slug, the slug never contains whitespace or two adjacent hyphens, and
underscores, umlauts and outer hyphens survive. -/
theorem C2_amended :
    (∀ kind name, create_uri kind name =
      "http://leuphana.de/resource/" ++ kind ++ "/" ++ createSlug name) ∧
    createSlug "" = "" ∧
    (∀ name, (createSlug name).data.all (fun c => !pySpace c) = true) ∧
    (∀ name, noAdjPairB (fun c => c = '-') (createSlug name).data = true) ∧
    createSlug "a_b" = "a_b" ∧
    createSlug "Grüße & Co." = "grüße-co" ∧
    createSlug "-Data- " = "-data-" := by
  refine ⟨fun kind name => rfl, by decide, ?_, ?_, by decide, by decide, by decide⟩
  · intro name
    rw [List.all_eq_true]
    intro c hc
    have h1 := collapseRunsGo_mem (fun c => c = '-') '-' _ false c hc
    rcases h1 with h1 | h1
    · subst h1
      decide
    · have h2 := collapseRunsGo_mem pySpace '-' _ false c h1.2
      rcases h2 with h2 | h2
      · subst h2
        decide
      · simp [h2.1]
  · intro name
    exact (collapseRunsGo_noAdjPair (fun c => c = '-') '-' _ false).1

/-- C9 counterexample: on the name "a_b" the two slug implementations
disagree — `create_uri` keeps the underscore, `name_to_uri` strips
it. -/
theorem C9_counterexample :
    create_uri "person" "a_b" ≠ name_to_uri "person" "a_b" ∧
    name_to_uri "person" "a_b" = "http://leuphana.de/resource/person/ab" := by
  refine ⟨by decide, by decide⟩

/-- C9 (amended): the two slug implementations are NOT equivalent.
Both produce the instance-namespace/kind/slug shape and agree whenever
their slugs agree — e.g. on ordinary names such as "Anna Schmidt" or
"Institute of Ecology (IE)" — but they differ on names with
underscores (kept by `create_uri`, stripped by `name_to_uri`),
non-ASCII word characters such as umlauts (ditto), or leading/trailing
hyphens (kept by `create_uri`, trimmed by `name_to_uri`). -/
theorem C9_amended :
    (∀ kind name,
      create_uri kind name = "http://leuphana.de/resource/" ++ kind ++ "/" ++ createSlug name ∧
      name_to_uri kind name = "http://leuphana.de/resource/" ++ kind ++ "/" ++ nameSlug name) ∧
    (∀ kind name, createSlug name = nameSlug name →
      create_uri kind name = name_to_uri kind name) ∧
    createSlug "Anna Schmidt" = nameSlug "Anna Schmidt" ∧
    createSlug "Institute of Ecology (IE)" = nameSlug "Institute of Ecology (IE)" ∧
    createSlug "a_b" ≠ nameSlug "a_b" ∧
    createSlug "Müller" ≠ nameSlug "Müller" ∧
    createSlug "-x-" ≠ nameSlug "-x-" := by
  refine ⟨fun kind name => ⟨rfl, rfl⟩, ?_, by decide, by decide, by decide, by decide, by decide⟩
  intro kind name h
  simp [create_uri, name_to_uri, h]

/-- C9 amended, witnessed: the congruence conjunct applied at the
concrete name "Anna Schmidt", where both slugs are "anna-schmidt". -/
theorem C9_witness :
    create_uri "person" "Anna Schmidt" = name_to_uri "person" "Anna Schmidt" :=
  C9_amended.2.1 "person" "Anna Schmidt" (by decide)

theorem mem_optTriples {o : Option String} {f : String → List Triple} {t : Triple}
    (h : t ∈ optTriples o f) : ∃ x, o = some x ∧ t ∈ f x := by
  cases o with
  | none => simp [optTriples] at h
  | some x => exact ⟨x, rfl, h⟩

/-- C3: a Course whose `part_of_program` is absent gets an `offeredBy`
edge to the College fallback unit together with the inverse `offers`
edge, and the College unit itself is created (typed School and linked
`partOf` the University) by the core-academic-units step. -/
theorem C3_course_fallback :
    (∀ (g : RdfGraph) (c : CourseData), c.part_of_program = none →
      (⟨Node.uri c.uri, leuph "offeredBy", collegeNode⟩ : Triple) ∈ add_course g c ∧
      (⟨collegeNode, leuph "offers", Node.uri c.uri⟩ : Triple) ∈ add_course g c) ∧
    (⟨collegeNode, rdfType, leuph "School"⟩ : Triple) ∈ create_core_academic_units [] ∧
    (⟨collegeNode, leuph "partOf", universityNode⟩ : Triple) ∈ create_core_academic_units [] := by
  refine ⟨?_, by decide, by decide⟩
  intro g c h
  have h' : optStr c.part_of_program = none := by rw [h]; rfl
  constructor <;>
    simp [add_course, courseDelta, h', List.mem_append]

/-- C3, witnessed at a concrete program-less Course record. -/
theorem C3_witness :
    (⟨Node.uri "http://leuphana.de/resource/course/demo", leuph "offeredBy", collegeNode⟩ : Triple) ∈
      add_course [] ⟨"http://leuphana.de/resource/course/demo", "Demo Course",
        none, none, none, none, [], none, none, none⟩ ∧
    (⟨collegeNode, leuph "offers", Node.uri "http://leuphana.de/resource/course/demo"⟩ : Triple) ∈
      add_course [] ⟨"http://leuphana.de/resource/course/demo", "Demo Course",
        none, none, none, none, [], none, none, none⟩ :=
  C3_course_fallback.1 [] ⟨"http://leuphana.de/resource/course/demo", "Demo Course",
    none, none, none, none, [], none, none, none⟩ rfl

theorem findOrgCandidate_mem {g : RdfGraph} {a : String} :
    ∀ {l : List Node} {s : Node}, findOrgCandidate g a l = some s → s ∈ l := by
  intro l
  induction l with
  | nil => intro s h; simp [findOrgCandidate] at h
  | cons c rest ih =>
    intro s h
    rw [findOrgCandidate] at h
    split at h
    · injection h with h1
      rw [← h1]
      exact List.mem_cons_self _ _
    · split at h
      · injection h with h1
        rw [← h1]
        exact List.mem_cons_self _ _
      · exact List.mem_cons_of_mem _ (ih h)

theorem findOrgCandidate_none {g : RdfGraph} {a : String} :
    ∀ {l : List Node},
      (∀ s ∈ l,
        containsSub a.data (pyLower (nodeStr s)).data = false ∧
        suffixOf a.data (pyLower (nodeStr s)).data = false ∧
        (objectsOf g s (leuph "abbreviation")).any
          (fun o => decide (pyLower (nodeStr o) = a)) = false) →
      findOrgCandidate g a l = none := by
  intro l
  induction l with
  | nil => intro _; rfl
  | cons c rest ih =>
    intro h
    obtain ⟨h1, h2, h3⟩ := h c (List.mem_cons_self _ _)
    rw [findOrgCandidate, h1, h2, h3]
    simp only [Bool.or_self, Bool.false_eq_true, if_false]
    exact ih (fun s hs => h s (List.mem_cons_of_mem _ hs))

/-- C5: the relationship resolver is total by construction, its result
is always the exact reference, a typed candidate of the hinted kind,
or the University root; and whenever no exact-URI match exists and no
candidate of the hinted kind matches by substring, suffix or stored
abbreviation, it returns the single University root. -/
theorem C5_resolver_total_fallback :
    (∀ (g : RdfGraph) (u : String),
      resolve_org_uri g u = Node.uri u ∨
      resolve_org_uri g u = universityNode ∨
      ∃ cls ∈ [leuph "Institute", leuph "ResearchCenter", leuph "School"],
        resolve_org_uri g u ∈ subjectsOfType g cls) ∧
    (∀ (g : RdfGraph) (u : String),
      g.any (fun t => decide (t.s = Node.uri u ∧ t.p = rdfType)) = false →
      (∀ cls, typeToClass (refEntityType u) = some cls →
        ∀ s ∈ subjectsOfType g cls,
          containsSub (refAbbrev u).data (pyLower (nodeStr s)).data = false ∧
          suffixOf (refAbbrev u).data (pyLower (nodeStr s)).data = false ∧
          (objectsOf g s (leuph "abbreviation")).any
            (fun o => decide (pyLower (nodeStr o) = refAbbrev u)) = false) →
      resolve_org_uri g u = universityNode) := by
  constructor
  · intro g u
    rw [resolve_org_uri]
    split
    · exact Or.inl rfl
    · cases hty : typeToClass (refEntityType u) with
      | none => exact Or.inr (Or.inl rfl)
      | some cls =>
        rw [resolveStep2, resolveWithClass]
        cases hf : findOrgCandidate g (refAbbrev u) (subjectsOfType g cls) with
        | none => exact Or.inr (Or.inl rfl)
        | some s =>
          refine Or.inr (Or.inr ⟨cls, ?_, ?_⟩)
          · revert hty
            unfold typeToClass
            split
            · intro h; injection h with h; simp [← h]
            · split
              · intro h; injection h with h; simp [← h]
              · split
                · intro h; injection h with h; simp [← h]
                · intro h; exact absurd h (by simp)
          · rw [resolveFound]
            exact findOrgCandidate_mem hf
  · intro g u hexact hmatch
    rw [resolve_org_uri, hexact]
    simp only [Bool.false_eq_true, if_false]
    cases hty : typeToClass (refEntityType u) with
    | none => rfl
    | some cls =>
      rw [resolveStep2, resolveWithClass, findOrgCandidate_none (hmatch cls hty)]
      rfl

/-- C5 witnessed: in the empty graph an unknown reference resolves to
the University root. -/
theorem C5_witness :
    resolve_org_uri [] "institute/unknown" = universityNode :=
  C5_resolver_total_fallback.2 [] "institute/unknown" (by decide)
    (fun _cls _ s hs => absurd hs (by simp [subjectsOfType]))

/-- C6 counterexample. First: the claim puts the stored-abbreviation
step before the substring step, so "institute/imo" should resolve to
`instB` (the only candidate with stored abbreviation "imo"); the code
checks the substring per candidate first and returns `instA`. Second:
the claim prescribes a broader Organization super-kind search when the
hinted kind is absent; the code has none — "chair/imo" falls through
to the University root even though a `foaf:Organization` whose URI
contains "imo" exists. -/
theorem C6_counterexample :
    resolve_org_uri resolveOrderGraph "institute/imo" = instA ∧
    instA ≠ instB ∧
    (objectsOf resolveOrderGraph instB (leuph "abbreviation")).any
      (fun o => decide (pyLower (nodeStr o) = "imo")) = true ∧
    objectsOf resolveOrderGraph instA (leuph "abbreviation") = [] ∧
    typeToClass (refEntityType "chair/imo") = none ∧
    containsSub "imo".data (pyLower (nodeStr orgC)).data = true ∧
    resolve_org_uri orgOnlyGraph "chair/imo" = universityNode := by
  refine ⟨by decide, by decide, by decide, by decide, by decide, by decide, by decide⟩

theorem findOrgCandidate_eq_find (g : RdfGraph) (a : String) :
    ∀ l : List Node,
      findOrgCandidate g a l = l.find? (fun s =>
        containsSub a.data (pyLower (nodeStr s)).data
        || suffixOf a.data (pyLower (nodeStr s)).data
        || (objectsOf g s (leuph "abbreviation")).any
            (fun o => decide (pyLower (nodeStr o) = a))) := by
  intro l
  induction l with
  | nil => rfl
  | cons c rest ih =>
    rw [findOrgCandidate, List.find?]
    cases h1 : containsSub a.data (pyLower (nodeStr c)).data with
    | true => simp [h1]
    | false =>
      cases h2 : suffixOf a.data (pyLower (nodeStr c)).data with
      | true => simp [h1, h2]
      | false =>
        cases h3 : (objectsOf g c (leuph "abbreviation")).any
            (fun o => decide (pyLower (nodeStr o) = a)) with
        | true => simp [h1, h2, h3]
        | false => simp [h1, h2, h3, ih]

/-- C6 (amended): resolution tries, in order: (1) exact uri already in
the graph; (2) only when the reference's kind segment is one of
institute, research-center, school: the first candidate of that kind
in graph order whose lowered URI contains (or ends with) the trailing
path segment or whose stored abbreviation equals it — the substring
test is applied per candidate before its abbreviation attribute, so a
stored abbreviation never takes priority over an earlier substring
match; (3) the University root. There is no broader Organization
super-kind search. -/
theorem C6_amended :
    ∀ (g : RdfGraph) (u : String), resolve_org_uri g u = resolveSpecAmended g u := by
  intro g u
  rw [resolve_org_uri, resolveSpecAmended]
  split
  · rfl
  · cases hty : typeToClass (refEntityType u) with
    | none => rfl
    | some cls =>
      simp only [resolveStep2, amendedStep2, resolveWithClass]
      rw [findOrgCandidate_eq_find]
      cases h : (subjectsOfType g cls).find? (fun s =>
        containsSub (refAbbrev u).data (pyLower (nodeStr s)).data
        || suffixOf (refAbbrev u).data (pyLower (nodeStr s)).data
        || (objectsOf g s (leuph "abbreviation")).any
            (fun o => decide (pyLower (nodeStr o) = refAbbrev u))) with
      | none => rfl
      | some s => rfl

theorem optTriples_all {o : Option String} {f : String → List Triple} {P : Triple → Prop}
    (h : ∀ x, ∀ t ∈ f x, P t) : ∀ t ∈ optTriples o f, P t := by
  cases o with
  | none => intro t ht; simp [optTriples] at ht
  | some x => exact h x

theorem hiwiDelta_subjects (h : HiwiData) : ∀ t ∈ hiwiDelta h, t.s = Node.uri h.uri := by
  rw [hiwiDelta]
  refine List.forall_mem_append.mpr ⟨?_, optTriples_all (fun x => by simp)⟩
  refine List.forall_mem_append.mpr ⟨?_, optTriples_all (fun x => by simp)⟩
  refine List.forall_mem_append.mpr ⟨?_, optTriples_all (fun x => by simp)⟩
  refine List.forall_mem_append.mpr ⟨?_, optTriples_all (fun x => by simp)⟩
  refine List.forall_mem_append.mpr ⟨?_, optTriples_all (fun x => by simp)⟩
  refine List.forall_mem_append.mpr ⟨?_, optTriples_all (fun x => by simp)⟩
  simp

theorem projectBasic_preds (pr : ProjectData) :
    ∀ t ∈ projectBasic pr, t.p ∈ projectPredicates := by
  rw [projectBasic]
  refine List.forall_mem_append.mpr
    ⟨by simp [projectPredicates], optTriples_all (fun x => by simp [projectPredicates])⟩

theorem projectDelta_preds (g : RdfGraph) (pr : ProjectData) :
    ∀ t ∈ projectDelta g pr, t.p ∈ projectPredicates := by
  rw [projectDelta]
  refine List.forall_mem_append.mpr ⟨?_, optTriples_all (fun x => by simp [projectPredicates])⟩
  refine List.forall_mem_append.mpr ⟨?_, optTriples_all (fun x => by simp [projectPredicates])⟩
  refine List.forall_mem_append.mpr ⟨?_, optTriples_all (fun x => by simp [projectPredicates])⟩
  refine List.forall_mem_append.mpr ⟨?_, optTriples_all (fun x => by simp [projectPredicates])⟩
  refine List.forall_mem_append.mpr ⟨?_, optTriples_all (fun x => by simp [projectPredicates])⟩
  refine List.forall_mem_append.mpr ⟨projectBasic_preds pr, ?_⟩
  cases hcb : optStr pr.conducted_by <;> simp [projectPredicates]

/-- C4 counterexample: a HiwiPosition with a department gets the
forward `postedBy` triple but — since every triple `add_hiwi_position`
adds has the position as subject — no inverse triple from the
department; likewise a ResearchProject with a principal investigator
gets only the forward `worksOn` triple and no triple from the project
back to the investigator. -/
theorem C4_counterexample :
    (⟨Node.uri hiwiEx.uri, leuph "postedBy",
        Node.uri (name_to_uri "institute" "Institute of Ecology")⟩ : Triple) ∈
      add_hiwi_position [] hiwiEx ∧
    Node.uri (name_to_uri "institute" "Institute of Ecology") ≠ Node.uri hiwiEx.uri ∧
    (∀ t ∈ add_hiwi_position [] hiwiEx, t.s = Node.uri hiwiEx.uri) ∧
    (⟨Node.uri "http://leuphana.de/resource/person/jane-doe", leuph "worksOn",
        Node.uri projEx.uri⟩ : Triple) ∈ add_research_project [] projEx ∧
    (∀ t ∈ add_research_project [] projEx,
      ¬(t.s = Node.uri projEx.uri ∧
        t.o = Node.uri "http://leuphana.de/resource/person/jane-doe")) := by
  refine ⟨by decide, by decide, by decide, by decide, by decide⟩

/-- C4 (amended): the Person builder emits a forward triple and its
named inverse for every resolved relationship (memberOf/hasMember,
worksAt/hasEmployee, affiliatedWith/hasAffiliate), but the
HiwiPosition department link emits only the forward `postedBy` triple
(every triple added has the position as subject), and the
ResearchProject principal-investigator link emits only the forward
`worksOn` triple (no inverse predicate occurs among the project's
output predicates). -/
theorem C4_amended :
    (∀ (g : RdfGraph) (p : PersonData),
      (∀ inst, personInstLink g p = some inst →
        (⟨Node.uri p.uri, leuph "memberOf", inst⟩ : Triple) ∈ add_person g p ∧
        (⟨inst, leuph "hasMember", Node.uri p.uri⟩ : Triple) ∈ add_person g p) ∧
      (∀ sch, optStr p.school = some sch →
        (⟨Node.uri p.uri, leuph "worksAt", Node.uri (name_to_uri "school" sch)⟩ : Triple) ∈
          add_person g p ∧
        (⟨Node.uri (name_to_uri "school" sch), leuph "hasEmployee", Node.uri p.uri⟩ : Triple) ∈
          add_person g p) ∧
      (personInstLink g p = none → optStr p.school = none →
        (⟨Node.uri p.uri, leuph "affiliatedWith", universityNode⟩ : Triple) ∈ add_person g p ∧
        (⟨universityNode, leuph "hasAffiliate", Node.uri p.uri⟩ : Triple) ∈ add_person g p)) ∧
    (∀ (g : RdfGraph) (h : HiwiData) (t : Triple),
      t ∈ add_hiwi_position g h → t ∈ g ∨ t.s = Node.uri h.uri) ∧
    (∀ (g : RdfGraph) (pr : ProjectData) (x : String),
      optStr pr.principal_investigator = some x →
      (⟨Node.uri x, leuph "worksOn", Node.uri pr.uri⟩ : Triple) ∈ add_research_project g pr) ∧
    (∀ (g : RdfGraph) (pr : ProjectData) (t : Triple),
      t ∈ add_research_project g pr → t ∈ g ∨ t.p ∈ projectPredicates) := by
  refine ⟨?_, ?_, ?_, ?_⟩
  · intro g p
    refine ⟨?_, ?_, ?_⟩
    · intro inst hli
      constructor <;> simp [add_person, personDelta, hli, optTriples]
    · intro sch hs
      constructor <;> simp [add_person, personDelta, hs, optTriples]
    · intro hli hs
      constructor <;> simp [add_person, personDelta, hli, hs, optTriples]
  · intro g h t ht
    rcases List.mem_append.mp ht with h1 | h1
    · exact Or.inl h1
    · exact Or.inr (hiwiDelta_subjects h t h1)
  · intro g pr x hx
    simp [add_research_project, projectDelta, hx, optTriples]
  · intro g pr t ht
    rcases List.mem_append.mp ht with h1 | h1
    · exact Or.inl h1
    · exact Or.inr (projectDelta_preds g pr t h1)

/-- C4 amended, witnessed: a person with school "College" gets both
the `worksAt` triple and its `hasEmployee` inverse. -/
theorem C4_witness :
    (⟨Node.uri personW.uri, leuph "worksAt", Node.uri (name_to_uri "school" "College")⟩ : Triple) ∈
      add_person [] personW ∧
    (⟨Node.uri (name_to_uri "school" "College"), leuph "hasEmployee",
        Node.uri personW.uri⟩ : Triple) ∈ add_person [] personW :=
  (C4_amended.1 [] personW).2.1 "College" rfl

theorem stripTitles_all_titles :
    ∀ l : List String, (∀ tok ∈ l, isTitleTok tok = true) → stripTitles l = (l, []) := by
  intro l
  induction l with
  | nil => intro _; rfl
  | cons tok rest ih =>
    intro h
    rw [stripTitles, h tok (List.mem_cons_self _ _)]
    simp only [if_true]
    rw [ih (fun t ht => h t (List.mem_cons_of_mem _ ht))]

/-- C10: when every whitespace token of the input matches the
title-stripping loop (e.g. "Prof. Dr."), `extract_name_parts` returns
no first name, the whole original input as the last name, and the
joined stripped tokens as the title. -/
theorem C10_all_title_tokens :
    ∀ s : String, splitWs s ≠ [] → (∀ tok ∈ splitWs s, isTitleTok tok = true) →
      extract_name_parts s = (none, s, some (joinSpace (splitWs s))) := by
  intro s hne h
  rw [extract_name_parts, stripTitles_all_titles (splitWs s) h]
  cases hsp : splitWs s with
  | nil => exact absurd hsp hne
  | cons a rest => rfl

/-- C10 witnessed at "Prof. Dr.": every token strips, the last name is
the whole input, the title is "Prof. Dr.". -/
theorem C10_witness :
    extract_name_parts "Prof. Dr." = (none, "Prof. Dr.", some (joinSpace (splitWs "Prof. Dr."))) ∧
    joinSpace (splitWs "Prof. Dr.") = "Prof. Dr." :=
  ⟨C10_all_title_tokens "Prof. Dr." (by decide) (by decide), by decide⟩

/-- C7 counterexample: registering "Anna Schmidt" and then
"Prof. Dr. Anna Schmidt" through the person-list path creates TWO
registry entries (their canonical uris differ and no alias check
runs), even though the claimed case-insensitive substring test would
have identified them (third conjunct). -/
theorem C7_counterexample :
    (registerPersonListPage
      (registerPersonListPage [] "Anna Schmidt" none "u1" "src")
      "Prof. Dr. Anna Schmidt" none "u2" "src").length = 2 ∧
    create_uri "person" "Anna Schmidt" ≠ create_uri "person" "Prof. Dr. Anna Schmidt" ∧
    strContains (pyLower "Anna Schmidt") (pyLower "Prof. Dr. Anna Schmidt") = true := by
  refine ⟨by decide, by decide, by decide⟩

theorem findProfessor_isSome :
    ∀ (l : List (String × SPerson)) (pname : String),
      (∃ kv ∈ l, kv.2.name = pname ∨ strContains pname kv.2.name = true) →
      (findProfessor l pname).isSome = true := by
  intro l
  induction l with
  | nil => intro pname h; simp at h
  | cons kv rest ih =>
    intro pname h
    rw [findProfessor]
    cases hc : (decide (kv.2.name = pname) || strContains pname kv.2.name) with
    | true => rfl
    | false =>
      simp only [Bool.false_eq_true, if_false]
      rcases h with ⟨kv', hmem, hmatch⟩
      rcases List.mem_cons.mp hmem with rfl | hmem'
      · exfalso
        have hc' := Bool.or_eq_false_iff.mp hc
        rcases hmatch with hm | hm
        · exact (of_decide_eq_false hc'.1) hm
        · exact absurd hc'.2 (by simp [hm])
      · exact ih pname ⟨kv', hmem', hmatch⟩

/-- C7 (amended): registration does not deduplicate aliases. The
person-list path keys solely on the canonical uri, so the claimed
scenario creates two entities (second conjunct). Only the
chair-heading professor lookup is fuzzy, and it is case-sensitive and
one-directional: it resolves to an existing entity exactly when the
candidate name equals or is contained in an existing display name —
so the reverse order (long form first, short form looked up) yields
one entity (third conjunct), while the claimed order creates a second
entity (fourth); the lookup is case-sensitive: a pure case variant
fails it even though the claimed case-insensitive test matches
(fifth and sixth conjuncts). -/
theorem C7_amended :
    (∀ (l : List (String × SPerson)) (pname src : String),
      (∃ kv ∈ l, kv.2.name = pname ∨ strContains pname kv.2.name = true) →
      (chairHeadResolve l pname src).2 = l) ∧
    (registerPersonListPage
      (registerPersonListPage [] "Anna Schmidt" none "u1" "src")
      "Prof. Dr. Anna Schmidt" none "u2" "src").length = 2 ∧
    chairHeadResolve
      [(create_uri "person" "Prof. Dr. Anna Schmidt", mkChairProfessor "Prof. Dr. Anna Schmidt" "src")]
      "Anna Schmidt" "src" =
      (create_uri "person" "Prof. Dr. Anna Schmidt",
       [(create_uri "person" "Prof. Dr. Anna Schmidt", mkChairProfessor "Prof. Dr. Anna Schmidt" "src")]) ∧
    (chairHeadResolve
      [(create_uri "person" "Anna Schmidt", mkChairProfessor "Anna Schmidt" "src")]
      "Prof. Dr. Anna Schmidt" "src").2.length = 2 ∧
    findProfessor
      [(create_uri "person" "anna maria schmidt", mkChairProfessor "anna maria schmidt" "src")]
      "Anna Maria Schmidt" = none ∧
    strContains (pyLower "Anna Maria Schmidt") (pyLower "anna maria schmidt") = true := by
  refine ⟨?_, by decide, by decide, by decide, by decide, by decide⟩
  intro l pname src h
  have hs := findProfessor_isSome l pname h
  rw [chairHeadResolve]
  cases hf : findProfessor l pname with
  | some u => rfl
  | none => rw [hf] at hs; simp at hs

/-- C7 amended, witnessed: with "Prof. Dr. Anna Schmidt" registered,
looking up "Anna Schmidt" on the chair path leaves the registry
unchanged. -/
theorem C7_witness :
    (chairHeadResolve
      [(create_uri "person" "Prof. Dr. Anna Schmidt", mkChairProfessor "Prof. Dr. Anna Schmidt" "src")]
      "Anna Schmidt" "demo").2 =
      [(create_uri "person" "Prof. Dr. Anna Schmidt", mkChairProfessor "Prof. Dr. Anna Schmidt" "src")] :=
  C7_amended.1 _ "Anna Schmidt" "demo"
    ⟨(create_uri "person" "Prof. Dr. Anna Schmidt", mkChairProfessor "Prof. Dr. Anna Schmidt" "src"),
     List.mem_cons_self _ _, Or.inr (by decide)⟩

/-- C8 counterexample: the profile path replaces the stored record
wholesale — after registering `personRecA` (which has an email) and
then the colliding `personRecB` (no email, a phone), the stored entity
is `personRecB` and the email is gone, contradicting
"existing attribute values win"; the hiwi path skips the colliding
record entirely — `hiwiRec2`'s description and department are NOT
merged into the stored `hiwiRec1`, contradicting "non-conflicting new
attributes are merged in". -/
theorem C8_counterexample :
    dictLookup (registerPersonProfile (registerPersonProfile [] personRecA) personRecB)
      personRecA.uri = some personRecB ∧
    personRecA.email = some "anna.schmidt@leuphana.de" ∧
    personRecB.email = none ∧
    registerHiwiPosition [(hiwiRec1.uri, hiwiRec1)] hiwiRec2 = [(hiwiRec1.uri, hiwiRec1)] ∧
    hiwiRec1.description = none ∧
    hiwiRec2.description = some "Lab work" := by
  refine ⟨by decide, by decide, by decide, by decide, by decide, by decide⟩

theorem dictLookup_map_replace {α : Type} (k : String) (v : α) :
    ∀ m : List (String × α), m.any (fun kv => decide (kv.1 = k)) = true →
      dictLookup (m.map (fun kv => if kv.1 = k then (k, v) else kv)) k = some v := by
  intro m
  induction m with
  | nil => intro h; simp at h
  | cons a rest ih =>
    intro h
    by_cases ha : a.1 = k
    · simp [dictLookup, ha]
    · have h' : rest.any (fun kv => decide (kv.1 = k)) = true := by
        simp only [List.any_cons, Bool.or_eq_true, decide_eq_true_eq] at h
        rcases h with h | h
        · exact absurd h ha
        · exact h
      simp [dictLookup, ha, ih h']

theorem dictLookup_append_new {α : Type} (k : String) (v : α) :
    ∀ m : List (String × α), m.any (fun kv => decide (kv.1 = k)) = false →
      dictLookup (m ++ [(k, v)]) k = some v := by
  intro m
  induction m with
  | nil => simp [dictLookup]
  | cons a rest ih =>
    intro h
    simp only [List.any_cons, Bool.or_eq_false_iff, decide_eq_false_iff_not] at h
    rw [List.cons_append, dictLookup]
    rw [if_neg h.1]
    exact ih (by simp [h.2])

theorem dictLookup_insert {α : Type} (k : String) (v : α) (m : List (String × α)) :
    dictLookup (dictInsert m k v) k = some v := by
  rw [dictInsert]
  cases h : m.any (fun kv => decide (kv.1 = k)) with
  | true => simp only [if_true]; exact dictLookup_map_replace k v m h
  | false => simp only [Bool.false_eq_true, if_false]; exact dictLookup_append_new k v m h

/-- C8 (amended): a uri collision never aborts, but no merge happens:
the profile path overwrites the stored record wholesale (the last
write wins, for every registry state), and the hiwi path leaves the
registry completely unchanged (the first record is kept, every new
attribute is discarded). -/
theorem C8_amended :
    (∀ (m : List (String × SPerson)) (p : SPerson),
      dictLookup (registerPersonProfile m p) p.uri = some p) ∧
    (∀ (m : List (String × SHiwi)) (h : SHiwi),
      m.any (fun kv => decide (kv.1 = h.uri)) = true → registerHiwiPosition m h = m) := by
  constructor
  · intro m p
    exact dictLookup_insert p.uri p m
  · intro m h hmem
    rw [registerHiwiPosition, hmem]
    simp

/-- C8 amended, witnessed at the concrete colliding records. -/
theorem C8_witness :
    dictLookup (registerPersonProfile [(personRecA.uri, personRecA)] personRecB)
      personRecB.uri = some personRecB ∧
    registerHiwiPosition [(hiwiRec1.uri, hiwiRec1)] hiwiRec2 = [(hiwiRec1.uri, hiwiRec1)] :=
  ⟨C8_amended.1 [(personRecA.uri, personRecA)] personRecB,
   C8_amended.2 [(hiwiRec1.uri, hiwiRec1)] hiwiRec2 (by decide)⟩

end LeuphanaKG

